import Mathlib

/-!
Verification development for the LoveCapsule temporal disclosure engine.

The definitions below are a shallow embedding of the repository's disclosure
logic:
* src/src/lib/date-utils.ts (isAnniversaryReady, getNextCheckpointDate),
* supabase/functions/check-anniversary/index.ts (the reveal gate handler),
* supabase/migrations/004_checkpoints.sql (check_checkpoint_today,
  get_checkpoint_entry and the checkpoint_reveals table),
* supabase/migrations/002_reveal_history.sql (get_reveal_stats streaks,
  save_reveal_snapshot),
* the useReveal hook (triggerReveal client pipeline).

Calendar dates are modelled as (year, month, day) triples of integers; the
JavaScript Date comparisons isBefore / isAfter / isSameDay, used only at
day granularity by the code, become lexicographic comparison of the triples.
SQL DATE values additionally support integer arithmetic; for those we use the
day-number image of a date (daysFromCivil below).
-/

namespace LoveCapsule

/-- A calendar date: year, month (1-12), day (1-28/31), as used by the
TypeScript code via JS Date objects at day granularity. -/
structure SDate where
  y : Int
  m : Int
  d : Int
deriving DecidableEq, Repr

/-- Lexicographic strict order on dates; this is what isBefore amounts to for
the midnight-normalised Date values the code compares. -/
def dateLt (a b : SDate) : Prop :=
  a.y < b.y ∨ (a.y = b.y ∧ (a.m < b.m ∨ (a.m = b.m ∧ a.d < b.d)))

/-- Lexicographic order on dates; isAfter-or-isSameDay in the code. -/
def dateLe (a b : SDate) : Prop :=
  a.y < b.y ∨ (a.y = b.y ∧ (a.m < b.m ∨ (a.m = b.m ∧ a.d ≤ b.d)))

instance (a b : SDate) : Decidable (dateLt a b) := by
  unfold dateLt; exact inferInstance

instance (a b : SDate) : Decidable (dateLe a b) := by
  unfold dateLe; exact inferInstance

theorem dateLt_iff_not_le (a b : SDate) : dateLt a b ↔ ¬ dateLe b a := by
  unfold dateLt dateLe
  constructor
  · rintro (h | ⟨he, h | ⟨hm, hd⟩⟩) <;> rintro (h2 | ⟨he2, h2 | ⟨hm2, hd2⟩⟩) <;> omega
  · intro h
    by_cases hy : a.y < b.y
    · exact Or.inl hy
    · by_cases hye : a.y = b.y
      · refine Or.inr ⟨hye, ?_⟩
        by_cases hm : a.m < b.m
        · exact Or.inl hm
        · by_cases hme : a.m = b.m
          · refine Or.inr ⟨hme, ?_⟩
            by_contra hd
            exact h (Or.inr ⟨hye.symm, Or.inr ⟨hme.symm, by omega⟩⟩)
          · exact absurd (Or.inr ⟨hye.symm, Or.inl (by omega)⟩) h
      · exact absurd (Or.inl (by omega)) h

theorem dateLe_refl (a : SDate) : dateLe a a := by
  unfold dateLe; omega

theorem dateLe_antisymm {a b : SDate} (h1 : dateLe a b) (h2 : dateLe b a) :
    a = b := by
  unfold dateLe at h1 h2
  rcases a with ⟨ay, am, ad⟩
  rcases b with ⟨by_, bm, bd⟩
  simp only [SDate.mk.injEq]
  simp only at h1 h2
  omega

theorem dateLe_trans {a b c : SDate} (h1 : dateLe a b) (h2 : dateLe b c) :
    dateLe a c := by
  unfold dateLe at h1 h2 ⊢
  omega

theorem dateLe_total (a b : SDate) : dateLe a b ∨ dateLe b a := by
  unfold dateLe; omega

/-- setYear of date-fns: replace the year component, keep month and day. -/
def setYearOf (a : SDate) (y : Int) : SDate :=
  { a with y := y }

-- ============================================
-- Reveal gate (check-anniversary edge function and
-- isAnniversaryReady in date-utils.ts)
-- ============================================

/-- A couples row, restricted to the fields the reveal gate reads. -/
structure CoupleReveal where
  anniversary_date : Option SDate
  is_revealed : Bool
  last_reveal_year : Option Int
deriving DecidableEq, Repr

/-- isAnniversaryReady from date-utils.ts: the anniversary mapped onto the
current year is on/before today, and the last reveal year is null or smaller
than the current year.  The function receives the anniversary as a string, so
the set-ness check lives in its callers; here the date is a given value. -/
def isAnniversaryReady (anniversaryDate : SDate) (lastRevealYear : Option Int)
    (today : SDate) : Bool :=
  let anniversaryThisYear := setYearOf anniversaryDate today.y
  (decide (dateLe anniversaryThisYear today)) &&
    (match lastRevealYear with
     | none => true
     | some yr => decide (yr < today.y))

/-- The eligibility test of the check-anniversary edge function: the couple
has an anniversary date, today is on/after the anniversary mapped onto the
current year, and last_reveal_year is null or smaller than the current year.
The handler rejects the trigger (HTTP 400) exactly when this is false. -/
def edgeIsReady (couple : CoupleReveal) (today : SDate) : Bool :=
  match couple.anniversary_date with
  | none => false
  | some anniv =>
      let anniversaryThisYear : SDate := ⟨today.y, anniv.m, anniv.d⟩
      (decide (dateLe anniversaryThisYear today)) &&
        (match couple.last_reveal_year with
         | none => true
         | some yr => decide (yr < today.y))

/-- Spec-side reveal-gate condition, following the specification's words:
anniversary_date is set AND today's (month, day) is on/after the
anniversary's (month, day) for the current year AND (last_reveal_year is
null OR last_reveal_year < current year). -/
def specGateReady (couple : CoupleReveal) (today : SDate) : Prop :=
  ∃ anniv, couple.anniversary_date = some anniv ∧
    (anniv.m < today.m ∨ (anniv.m = today.m ∧ anniv.d ≤ today.d)) ∧
    (couple.last_reveal_year = none ∨
      ∃ yr, couple.last_reveal_year = some yr ∧ yr < today.y)

-- ============================================
-- check_checkpoint_today (004_checkpoints.sql)
-- ============================================

/-- Checkpoint recurrence frequency tags (checkpoint_configs.frequency). -/
inductive CheckpointFrequency where
  | monthly
  | quarterly
  | semi_annual
  | specific_date
deriving DecidableEq, Repr

/-- A checkpoint_configs row, restricted to the fields the recurrence logic
reads.  day_of_month is constrained to 1..28 by the schema; months holds the
qualifying months for quarterly/semi_annual; specific_date the absolute date
for specific_date configs. -/
structure CheckpointConfig where
  frequency : CheckpointFrequency
  day_of_month : Option Int
  months : Option (List Int)
  specific_date : Option SDate
  is_active : Bool
deriving DecidableEq, Repr

/-- The per-config match condition of check_checkpoint_today: SQL comparisons
against a NULL column are not satisfied, hence the Option matches. -/
def configMatchesToday (c : CheckpointConfig) (today : SDate) : Bool :=
  c.is_active &&
  (match c.frequency, c.day_of_month, c.months, c.specific_date with
   | .monthly, some dm, _, _ => decide (dm = today.d)
   | .quarterly, some dm, some ms, _ =>
       decide (dm = today.d) && decide (today.m ∈ ms)
   | .semi_annual, some dm, some ms, _ =>
       decide (dm = today.d) && decide (today.m ∈ ms)
   | .specific_date, _, _, some sd => decide (sd = today)
   | _, _, _, _ => false)

/-- check_checkpoint_today: the is_checkpoint_day field is an EXISTS over the
couple's active configs with the per-frequency match conditions. -/
def checkCheckpointToday (configs : List CheckpointConfig) (today : SDate) :
    Bool :=
  configs.any (fun c => configMatchesToday c today)

-- ============================================
-- getNextCheckpointDate (date-utils.ts)
-- ============================================

/-- The next calendar month as built by new Date(currentYear,
today.getMonth() + 1, day): JS normalises month index 12 to January of the
following year. -/
def nextMonthDate (today : SDate) (dm : Int) : SDate :=
  if today.m = 12 then ⟨today.y + 1, 1, dm⟩ else ⟨today.y, today.m + 1, dm⟩

/-- The candidate dates one config contributes inside the loop of
getNextCheckpointDate (inactive configs are filtered by the caller).
Month values stored in the months array are used as given; the app writes
them in 1..12. -/
def configCandidates (c : CheckpointConfig) (today : SDate) : List SDate :=
  match c.frequency with
  | .monthly =>
      match c.day_of_month with
      | none => []
      | some dm =>
          let thisMonth : SDate := ⟨today.y, today.m, dm⟩
          (if dateLe today thisMonth then [thisMonth] else []) ++
            [nextMonthDate today dm]
  | .quarterly | .semi_annual =>
      match c.day_of_month, c.months with
      | some dm, some ms =>
          ms.flatMap (fun mo =>
            let thisYear : SDate := ⟨today.y, mo, dm⟩
            (if dateLe today thisYear then [thisYear] else []) ++
              [⟨today.y + 1, mo, dm⟩])
      | _, _ => []
  | .specific_date =>
      match c.specific_date with
      | none => []
      | some sd =>
          let thisYearDate := setYearOf sd today.y
          if dateLt thisYearDate today then [setYearOf sd (today.y + 1)]
          else [thisYearDate]

/-- One step of the final min-accumulation loop: nextDate is replaced when it
is null or the candidate is strictly before it. -/
def minStep (acc : Option SDate) (cand : SDate) : Option SDate :=
  match acc with
  | none => some cand
  | some b => if dateLt cand b then some cand else some b

/-- Folding minStep over a candidate list, threading the accumulator exactly
as the inner for-loop of getNextCheckpointDate does. -/
def minFold (acc : Option SDate) (l : List SDate) : Option SDate :=
  l.foldl minStep acc

/-- getNextCheckpointDate from date-utils.ts: skip inactive configs,
accumulate the minimum over every config's candidate dates.  The early
return null for an empty list coincides with folding from none. -/
def getNextCheckpointDate (configs : List CheckpointConfig) (today : SDate) :
    Option SDate :=
  configs.foldl
    (fun acc c =>
      if c.is_active then minFold acc (configCandidates c today) else acc)
    none

-- ============================================
-- Checkpoint selector state model (004_checkpoints.sql)
-- ============================================

/-- A couples row as read by get_checkpoint_entry: its id and the two
partner ids. -/
structure CoupleRow where
  id : Nat
  partner_1_id : Nat
  partner_2_id : Nat
deriving DecidableEq, Repr

/-- An entries row, restricted to the columns get_checkpoint_entry and the
reveal statistics read.  Columns declared NOT NULL in the schema (id,
couple_id, author_id, title, content, word_count, is_draft, entry_date,
created_at) are plain values; the nullable columns mood, location_name,
location_lat and location_lng are Options.  entry_date is the day number of
the DATE value; location coordinates are abstracted to integers since only
their nullness is consulted here. -/
structure EntryRow where
  id : Nat
  couple_id : Nat
  author_id : Nat
  is_draft : Bool
  entry_date : Int
  word_count : Int
  mood : Option String
  location_name : Option String
  location_lat : Option Int
  location_lng : Option Int
deriving DecidableEq, Repr

/-- A checkpoint_reveals row.  checkpoint_config_id is nullable (the RPC may
be called without a config, and ON DELETE SET NULL can clear it); the other
columns are NOT NULL. -/
structure RevealRow where
  couple_id : Nat
  checkpoint_config_id : Option Nat
  entry_id : Nat
  revealed_to_user_id : Nat
  checkpoint_date : Int
deriving DecidableEq, Repr

/-- The database state the checkpoint selector touches: couples, entries and
the append-only checkpoint_reveals table. -/
structure CheckpointDB where
  couples : List CoupleRow
  entries : List EntryRow
  reveals : List RevealRow
deriving DecidableEq, Repr

/-- The JSON result shape of get_checkpoint_entry: the entry (as its id),
the already_revealed and no_entries flags, and the optional error string. -/
structure CheckpointResult where
  entry : Option Nat
  already_revealed : Bool
  no_entries : Bool
  error : Option String
deriving DecidableEq, Repr

/-- The partner lookup at the top of get_checkpoint_entry: the row of
couples with the given id of which the caller is a member; the CASE picks
the other partner.  NULL (none) when the caller is not a member. -/
def findPartner (db : CheckpointDB) (coupleId uid : Nat) : Option Nat :=
  (db.couples.find? (fun c =>
      c.id = coupleId && (c.partner_1_id = uid || c.partner_2_id = uid))).map
    (fun c => if c.partner_1_id = uid then c.partner_2_id else c.partner_1_id)

/-- The existing-reveal lookup: the first checkpoint_reveals row for
(couple, caller, today) joined to its entries row. -/
def findExistingReveal (db : CheckpointDB) (coupleId uid : Nat)
    (today : Int) : Option (RevealRow × EntryRow) :=
  (db.reveals.filter (fun r =>
      r.couple_id = coupleId && r.revealed_to_user_id = uid &&
        r.checkpoint_date = today)).findSome?
    (fun r => (db.entries.find? (fun e => e.id = r.entry_id)).map
      (fun e => (r, e)))

/-- The IS NOT NULL test applied to the v_existing_reveal record.  In
PostgreSQL, IS NOT NULL on a row value is true only when every field is
non-null, so the test also inspects the nullable columns of the joined row:
checkpoint_config_id, mood, location_name, location_lat, location_lng.  The
NOT NULL columns are omitted because they can never be null. -/
def existingRecordAllNonNull (r : RevealRow) (e : EntryRow) : Bool :=
  r.checkpoint_config_id.isSome && e.mood.isSome && e.location_name.isSome &&
    e.location_lat.isSome && e.location_lng.isSome

/-- The ids of entries already revealed to the given user (the NOT IN
subquery of the random selection). -/
def revealedEntryIds (db : CheckpointDB) (uid : Nat) : List Nat :=
  (db.reveals.filter (fun r => r.revealed_to_user_id = uid)).map
    (fun r => r.entry_id)

/-- The candidate entries of the random selection: published entries of the
couple authored by the partner and never revealed to the caller. -/
def eligibleEntries (db : CheckpointDB) (coupleId partnerId uid : Nat) :
    List EntryRow :=
  db.entries.filter (fun e =>
    e.couple_id = coupleId && e.author_id = partnerId && !e.is_draft &&
      !(revealedEntryIds db uid).contains e.id)

/-- The selection-and-insert tail of get_checkpoint_entry: pick a random
unrevealed partner entry, record the reveal, return it.  pick stands for the
ORDER BY random() draw: it selects one element of the candidate list (the
SQL guarantees nothing about which). -/
def getCheckpointEntrySelect (db : CheckpointDB) (coupleId : Nat)
    (configId : Option Nat) (uid : Nat) (today : Int) (pick : Nat)
    (partnerId : Nat) : CheckpointResult × CheckpointDB :=
  match (eligibleEntries db coupleId partnerId uid).get?
      (pick % (eligibleEntries db coupleId partnerId uid).length) with
  | none => (⟨none, false, true, none⟩, db)
  | some chosen =>
      (⟨some chosen.id, false, false, none⟩,
       { db with
          reveals := db.reveals ++
            [⟨coupleId, configId, chosen.id, uid, today⟩] })

/-- get_checkpoint_entry.  Returns the JSON result together with the
successor database state. -/
def getCheckpointEntry (db : CheckpointDB) (coupleId : Nat)
    (configId : Option Nat) (uid : Nat) (today : Int) (pick : Nat) :
    CheckpointResult × CheckpointDB :=
  match findPartner db coupleId uid with
  | none =>
      (⟨none, false, true, some "Invalid couple or not a member"⟩, db)
  | some partnerId =>
      match findExistingReveal db coupleId uid today with
      | some (r, e) =>
          if existingRecordAllNonNull r e then
            (⟨some e.id, true, false, none⟩, db)
          else
            getCheckpointEntrySelect db coupleId configId uid today pick
              partnerId
      | none =>
          getCheckpointEntrySelect db coupleId configId uid today pick
            partnerId

-- ============================================
-- Longest-streak statistic (get_reveal_stats, 002_reveal_history.sql)
-- ============================================

/-- Day number of a Gregorian calendar date (days since 1970-01-01), the
standard civil-days computation.  This is the integer image of a SQL DATE
value, on which DATE subtraction acts as integer subtraction. -/
def daysFromCivil (y m d : Int) : Int :=
  let yr := if m ≤ 2 then y - 1 else y
  let era := (if 0 ≤ yr then yr else yr - 399) / 400
  let yoe := yr - era * 400
  let mp := (m + 9) % 12
  let doy := (153 * mp + 2) / 5 + d - 1
  let doe := yoe * 365 + yoe / 4 - yoe / 100 + doy
  era * 146097 + doe - 719468

/-- SELECT DISTINCT entry_date ... with the subsequent ROW_NUMBER () OVER
(ORDER BY entry_date): the distinct dates in ascending order. -/
def sortedDistinct (dates : List Int) : List Int :=
  (dates.dedup).insertionSort (· ≤ ·)

/-- entry_date - ROW_NUMBER() OVER (ORDER BY entry_date) for each row, where
k is the row number handed to the first element (the SQL starts at 1). -/
def grpList : Int → List Int → List Int
  | _, [] => []
  | k, d :: tl => (d - k) :: grpList (k + 1) tl

/-- Maximum of a list of naturals, 0 when empty (the COALESCE(MAX(..), 0)). -/
def maxList (l : List Nat) : Nat :=
  l.foldr max 0

/-- GROUP BY grp, COUNT(*) per group, then COALESCE(MAX(streak_len), 0). -/
def countMax (l : List Int) : Nat :=
  maxList (l.dedup.map (fun g => l.count g))

/-- The partner_N_longest_streak statistic of get_reveal_stats, applied to
the (already author/couple/draft/year filtered) entry dates of one
partner. -/
def longestStreakStat (dates : List Int) : Nat :=
  countMax (grpList 1 (sortedDistinct dates))

/-- Length of the initial run of the list that continues the value p by
consecutive increments of one day. -/
def runLen : Int → List Int → Nat
  | _, [] => 0
  | p, d :: tl => if d = p + 1 then runLen d tl + 1 else 0

/-- Spec-side streak: on the sorted distinct date list, the length of the
longest run in which each date is exactly one day after the previous. -/
def longestRun : List Int → Nat
  | [] => 0
  | d :: tl => max (runLen d tl + 1) (longestRun tl)

/-- Modelled from the specification's words: take the distinct set of entry
dates, sort them, and find the longest run where each date is exactly one
day after the previous (0 for an empty set). -/
def specLongestStreak (dates : List Int) : Nat :=
  longestRun (sortedDistinct dates)

theorem maxList_map_congr {D : List Int} {f g : Int → Nat}
    (h : ∀ x ∈ D, f x = g x) : maxList (D.map f) = maxList (D.map g) := by
  induction D with
  | nil => rfl
  | cons b D2 ih =>
      simp only [List.map_cons, maxList, List.foldr_cons]
      rw [h b (List.mem_cons_self b D2)]
      have := ih (fun x hx => h x (List.mem_cons_of_mem b hx))
      simp only [maxList] at this
      rw [this]

theorem maxList_map_bump (D : List Int) (F : Int → Nat) (a : Int)
    (ha : a ∈ D) :
    maxList (D.map (fun v => F v + if a = v then 1 else 0)) =
      max (F a + 1) (maxList (D.map F)) := by
  induction D with
  | nil => cases ha
  | cons b D2 ih =>
      simp only [List.map_cons, maxList, List.foldr_cons]
      by_cases hab : a = b
      · subst hab
        rw [if_pos rfl]
        by_cases ha2 : a ∈ D2
        · have := ih ha2
          simp only [maxList] at this
          rw [this]
          omega
        · have hcong : maxList (D2.map (fun v => F v + if a = v then 1 else 0)) =
              maxList (D2.map F) := by
            refine maxList_map_congr (fun x hx => ?_)
            have : ¬ (a = x) := fun h => ha2 (h ▸ hx)
            simp [this]
          simp only [maxList] at hcong
          rw [hcong]
          omega
      · have ha2 : a ∈ D2 := by
          rcases List.mem_cons.mp ha with h | h
          · exact absurd h hab
          · exact h
        have := ih ha2
        simp only [maxList] at this
        rw [if_neg hab, this]
        omega

theorem countMax_cons (a : Int) (l : List Int) :
    countMax (a :: l) = max (l.count a + 1) (countMax l) := by
  by_cases hmem : a ∈ l
  · unfold countMax
    rw [List.dedup_cons_of_mem hmem]
    have hcong : maxList (l.dedup.map (fun g => (a :: l).count g)) =
        maxList (l.dedup.map (fun v => l.count v + if a = v then 1 else 0)) := by
      refine maxList_map_congr (fun x _ => ?_)
      rw [List.count_cons]
      by_cases hax : a = x
      · simp [hax]
      · have : ¬ (x = a) := fun h => hax h.symm
        simp [hax, this]
    rw [hcong, maxList_map_bump l.dedup l.count a (List.mem_dedup.mpr hmem)]
  · unfold countMax
    rw [List.dedup_cons_of_not_mem hmem]
    simp only [List.map_cons, maxList, List.foldr_cons]
    have hca : (a :: l).count a = l.count a + 1 := by
      rw [List.count_cons]; simp
    have hcong : maxList (l.dedup.map (fun g => (a :: l).count g)) =
        maxList (l.dedup.map (fun g => l.count g)) := by
      refine maxList_map_congr (fun x hx => ?_)
      have hxa : ¬ (x = a) := by
        intro h; exact hmem (h ▸ List.mem_dedup.mp hx)
      have hax : ¬ (a = x) := fun h => hxa h.symm
      rw [List.count_cons]
      simp [hxa, hax]
    simp only [maxList] at hcong
    rw [hca, hcong]

theorem grpList_lower_bound :
    ∀ (z : Int) (rest : List Int), (z :: rest).Chain' (· < ·) →
      ∀ (k : Int), ∀ g ∈ grpList k (z :: rest), z - k ≤ g := by
  intro z rest
  induction rest generalizing z with
  | nil =>
      intro _ k g hg
      simp only [grpList, List.mem_singleton] at hg
      omega
  | cons w rest2 ih =>
      intro hchain k g hg
      have hzw : z < w := (List.chain'_cons.mp hchain).1
      have htail : (w :: rest2).Chain' (· < ·) := (List.chain'_cons.mp hchain).2
      rw [show grpList k (z :: w :: rest2) =
            (z - k) :: grpList (k + 1) (w :: rest2) from rfl] at hg
      rcases List.mem_cons.mp hg with h | h
      · omega
      · have := ih w htail (k + 1) g h
        omega

theorem count_grpList :
    ∀ (tl : List Int), tl.Chain' (· < ·) →
      ∀ (p k : Int), (∀ x ∈ tl.head?, p < x) →
        (grpList k tl).count (p + 1 - k) = runLen p tl := by
  intro tl
  induction tl with
  | nil => intro _ p k _; rfl
  | cons x tl2 ih =>
      intro hchain p k hp
      have hpx : p < x := hp x rfl
      have htail : tl2.Chain' (· < ·) := (List.chain'_cons'.mp hchain).2
      have hhead : ∀ y ∈ tl2.head?, x < y := (List.chain'_cons'.mp hchain).1
      simp only [grpList, runLen]
      by_cases hx : x = p + 1
      · subst hx
        rw [List.count_cons]
        have h1 : (grpList (k + 1) tl2).count (p + 1 - k) = runLen (p + 1) tl2 := by
          have : p + 1 - k = (p + 1) + 1 - (k + 1) := by omega
          rw [this]
          exact ih htail (p + 1) (k + 1) hhead
        simp only [h1]
        simp
      · rw [List.count_cons]
        have hne : ¬ (x - k = p + 1 - k) := by omega
        have hne2 : ¬ (p + 1 - k = x - k) := by omega
        have hzero : (grpList (k + 1) tl2).count (p + 1 - k) = 0 := by
          rw [List.count_eq_zero]
          intro hmem
          cases tl2 with
          | nil => simp [grpList] at hmem
          | cons z rest =>
              have hxz : x < z := hhead z rfl
              have := grpList_lower_bound z rest htail (k + 1) _ hmem
              omega
        rw [hzero]
        simp [hne, hne2, hx]

theorem countMax_grpList :
    ∀ (s : List Int), s.Chain' (· < ·) →
      ∀ (k : Int), countMax (grpList k s) = longestRun s := by
  intro s
  induction s with
  | nil => intro _ k; rfl
  | cons d tl ih =>
      intro hchain k
      have htail : tl.Chain' (· < ·) := (List.chain'_cons'.mp hchain).2
      have hhead : ∀ y ∈ tl.head?, d < y := (List.chain'_cons'.mp hchain).1
      simp only [grpList, longestRun]
      rw [countMax_cons]
      have h1 : (grpList (k + 1) tl).count (d - k) = runLen d tl := by
        have : d - k = d + 1 - (k + 1) := by omega
        rw [this]
        exact count_grpList tl htail d (k + 1) hhead
      rw [h1, ih htail (k + 1)]

theorem sortedDistinct_chain (dates : List Int) :
    (sortedDistinct dates).Chain' (· < ·) := by
  unfold sortedDistinct
  have hsorted : (dates.dedup.insertionSort (· ≤ ·)).Sorted (· ≤ ·) :=
    List.sorted_insertionSort (· ≤ ·) dates.dedup
  have hnodup : (dates.dedup.insertionSort (· ≤ ·)).Nodup :=
    (List.perm_insertionSort (· ≤ ·) dates.dedup).nodup_iff.mpr
      dates.nodup_dedup
  have hpair : (dates.dedup.insertionSort (· ≤ ·)).Pairwise (· < ·) := by
    have := List.Pairwise.and hsorted hnodup
    exact this.imp (fun h => lt_of_le_of_ne h.1 h.2)
  exact hpair.chain'

/-- The streak statistic computed by the SQL gaps-and-islands query equals
the spec-side longest consecutive run. -/
theorem longestStreakStat_eq_spec (dates : List Int) :
    longestStreakStat dates = specLongestStreak dates :=
  countMax_grpList (sortedDistinct dates) (sortedDistinct_chain dates) 1

-- ============================================
-- triggerReveal pipeline (useReveal hook, check-anniversary edge function,
-- save_reveal_snapshot of 002_reveal_history.sql)
-- ============================================

/-- The persisted state the reveal trigger touches: the couple row and the
reveal_history table, one row per year holding the stats snapshot (the
snapshot payload is abstracted to a number; its computation is modelled
separately by the statistics definitions). -/
structure RevealState where
  couple : CoupleReveal
  history : List (Int × Nat)
deriving DecidableEq, Repr

/-- save_reveal_snapshot: INSERT .. ON CONFLICT (couple_id, reveal_year)
DO UPDATE SET stats_snapshot = p_stats. -/
def saveRevealSnapshot (history : List (Int × Nat)) (year : Int)
    (stats : Nat) : List (Int × Nat) :=
  if history.any (fun p => p.1 = year) then
    history.map (fun p => if p.1 = year then (year, stats) else p)
  else
    history ++ [(year, stats)]

/-- Failure injection for the network / database steps the client pipeline
awaits: the session refresh, the couples UPDATE inside the edge function,
the get_reveal_stats RPC and the save_reveal_snapshot RPC. -/
structure TriggerOracle where
  refreshOk : Bool
  edgeUpdateOk : Bool
  statsOk : Bool
  saveOk : Bool
deriving DecidableEq, Repr

/-- The triggerReveal pipeline of the useReveal hook, combined with the
check-anniversary edge function it invokes.  The boolean result is the
hook's return value (false on a thrown error).  Step order, as in the code:
refresh session; edge function checks anniversary presence and the
eligibility gate, then UPDATEs is_revealed / last_reveal_year; the hook then
fetches stats and calls save_reveal_snapshot, whose error result the hook
does not inspect. -/
def triggerReveal (st : RevealState) (today : SDate) (stats : Nat)
    (o : TriggerOracle) : Bool × RevealState :=
  if !o.refreshOk then (false, st)
  else
    match st.couple.anniversary_date with
    | none => (false, st)
    | some _ =>
        if !(edgeIsReady st.couple today) then (false, st)
        else if !o.edgeUpdateOk then (false, st)
        else
          let st1 : RevealState :=
            { st with
                couple := { st.couple with
                              is_revealed := true,
                              last_reveal_year := some today.y } }
          if !o.statsOk then (false, st1)
          else if !o.saveOk then (true, st1)
          else (true, { st1 with
                          history := saveRevealSnapshot st1.history today.y
                            stats })

/-- Order on the optional last_reveal_year: null precedes every year. -/
def lastYearLe : Option Int → Option Int → Prop
  | none, _ => True
  | some _, none => False
  | some a, some b => a ≤ b

-- ============================================
-- Next-occurrence correctness machinery for getNextCheckpointDate
-- ============================================

theorem dateLt_asymm {a b : SDate} (h : dateLt a b) : ¬ dateLt b a := by
  unfold dateLt at h ⊢; omega

theorem dateLt_connex {a b : SDate} (h1 : ¬ dateLt a b) (h2 : ¬ dateLt b a) :
    a = b := by
  unfold dateLt at h1 h2
  rcases a with ⟨ay, am, ad⟩
  rcases b with ⟨by_, bm, bd⟩
  simp only at h1 h2
  simp only [SDate.mk.injEq]
  omega

theorem dateLt_le {a b : SDate} (h : dateLt a b) : dateLe a b := by
  unfold dateLt at h; unfold dateLe; omega

theorem not_dateLt_le {a b : SDate} (h : ¬ dateLt a b) : dateLe b a := by
  by_contra h2
  exact h ((dateLt_iff_not_le a b).mpr h2)

theorem dateLt_trans {a b c : SDate} (h1 : dateLt a b) (h2 : dateLt b c) :
    dateLt a c := by
  unfold dateLt at h1 h2 ⊢; omega

/-- Two-argument minimum on optional dates, the combination the claim's
"minimum of the per-config next occurrences" denotes. -/
def optMinStep (a b : Option SDate) : Option SDate :=
  match a, b with
  | none, x => x
  | some a1, none => some a1
  | some a1, some b1 => if dateLt b1 a1 then some b1 else some a1

theorem minStep_eq_optMinStep (acc : Option SDate) (d : SDate) :
    minStep acc d = optMinStep acc (some d) := by
  cases acc <;> rfl

theorem optMinStep_none_left (b : Option SDate) : optMinStep none b = b := by
  cases b <;> rfl

theorem optMinStep_none_right (a : Option SDate) : optMinStep a none = a := by
  cases a <;> rfl

theorem optMinStep_some_some (a b : SDate) :
    optMinStep (some a) (some b) = if dateLt b a then some b else some a :=
  rfl

theorem optMinStep_assoc (a b c : Option SDate) :
    optMinStep (optMinStep a b) c = optMinStep a (optMinStep b c) := by
  rcases a with _ | a1
  · rw [optMinStep_none_left, optMinStep_none_left]
  · rcases b with _ | b1
    · rw [optMinStep_none_right, optMinStep_none_left]
    · rcases c with _ | c1
      · rw [optMinStep_none_right, optMinStep_none_right]
      · rw [optMinStep_some_some a1 b1, optMinStep_some_some b1 c1]
        by_cases h1 : dateLt b1 a1
        · rw [if_pos h1]
          by_cases h2 : dateLt c1 b1
          · rw [if_pos h2, optMinStep_some_some, optMinStep_some_some,
              if_pos h2, if_pos (dateLt_trans h2 h1)]
          · rw [if_neg h2, optMinStep_some_some, optMinStep_some_some,
              if_neg h2, if_pos h1]
        · rw [if_neg h1]
          by_cases h2 : dateLt c1 b1
          · rw [if_pos h2]
          · rw [if_neg h2, optMinStep_some_some, optMinStep_some_some,
              if_neg h1]
            have h3 : ¬ dateLt c1 a1 := by
              rw [dateLt_iff_not_le]
              intro hcon
              exact hcon (dateLe_trans (not_dateLt_le h1) (not_dateLt_le h2))
            rw [if_neg h3]

theorem minFold_cons (acc : Option SDate) (d : SDate) (tl : List SDate) :
    minFold acc (d :: tl) = minFold (minStep acc d) tl := rfl

theorem minFold_acc (l : List SDate) :
    ∀ acc, minFold acc l = optMinStep acc (minFold none l) := by
  induction l with
  | nil => intro acc; cases acc <;> rfl
  | cons d tl ih =>
      intro acc
      rw [minFold_cons, minFold_cons, ih (minStep acc d),
        ih (minStep none d), minStep_eq_optMinStep,
        minStep_eq_optMinStep none d, optMinStep_none_left, optMinStep_assoc]

theorem minFold_some_spec :
    ∀ (l : List SDate) (a m : SDate), minFold (some a) l = some m →
      (m = a ∨ m ∈ l) ∧ dateLe m a ∧ ∀ x ∈ l, dateLe m x := by
  intro l
  induction l with
  | nil =>
      intro a m hm
      have ham : a = m := by
        simpa [minFold] using hm
      subst ham
      exact ⟨Or.inl rfl, dateLe_refl a, fun x hx => absurd hx (by simp)⟩
  | cons d tl ih =>
      intro a m hm
      rw [minFold_cons] at hm
      simp only [minStep] at hm
      by_cases hlt : dateLt d a
      · rw [if_pos hlt] at hm
        obtain ⟨hmem, hle, hall⟩ := ih d m hm
        refine ⟨?_, ?_, ?_⟩
        · rcases hmem with h | h
          · exact Or.inr (by rw [h]; exact List.mem_cons_self d tl)
          · exact Or.inr (List.mem_cons_of_mem d h)
        · exact dateLe_trans hle (dateLt_le hlt)
        · intro x hx
          rcases List.mem_cons.mp hx with h | h
          · rw [h]; exact hle
          · exact hall x h
      · rw [if_neg hlt] at hm
        obtain ⟨hmem, hle, hall⟩ := ih a m hm
        refine ⟨?_, hle, ?_⟩
        · rcases hmem with h | h
          · exact Or.inl h
          · exact Or.inr (List.mem_cons_of_mem d h)
        · intro x hx
          rcases List.mem_cons.mp hx with h | h
          · rw [h]; exact dateLe_trans hle (not_dateLt_le hlt)
          · exact hall x h

theorem minFold_some_isSome (l : List SDate) :
    ∀ a, ∃ m, minFold (some a) l = some m := by
  induction l with
  | nil => intro a; exact ⟨a, rfl⟩
  | cons d tl ih =>
      intro a
      rw [minFold_cons]
      simp only [minStep]
      by_cases hlt : dateLt d a
      · rw [if_pos hlt]; exact ih d
      · rw [if_neg hlt]; exact ih a

theorem minFold_none_nil_iff (l : List SDate) :
    minFold none l = none ↔ l = [] := by
  cases l with
  | nil => simp [minFold]
  | cons d tl =>
      rw [minFold_cons]
      simp only [minStep]
      obtain ⟨m, hm⟩ := minFold_some_isSome tl d
      rw [hm]
      simp

theorem minFold_none_spec {l : List SDate} {m : SDate}
    (hm : minFold none l = some m) : m ∈ l ∧ ∀ x ∈ l, dateLe m x := by
  cases l with
  | nil => simp [minFold] at hm
  | cons d tl =>
      rw [minFold_cons] at hm
      simp only [minStep] at hm
      obtain ⟨hmem, hle, hall⟩ := minFold_some_spec tl d m hm
      refine ⟨?_, ?_⟩
      · rcases hmem with h | h
        · rw [h]; exact List.mem_cons_self d tl
        · exact List.mem_cons_of_mem d h
      · intro x hx
        rcases List.mem_cons.mp hx with h | h
        · rw [h]; exact hle
        · exact hall x h

theorem minFold_congr_of_mem_iff {l1 l2 : List SDate}
    (h : ∀ x, x ∈ l1 ↔ x ∈ l2) : minFold none l1 = minFold none l2 := by
  cases hm1 : minFold none l1 with
  | none =>
      have h1 : l1 = [] := (minFold_none_nil_iff l1).mp hm1
      cases hm2 : minFold none l2 with
      | none => rfl
      | some m2 =>
          obtain ⟨hmem2, _⟩ := minFold_none_spec hm2
          exact absurd ((h m2).mpr hmem2) (by simp [h1])
  | some m1 =>
      obtain ⟨hmem1, hall1⟩ := minFold_none_spec hm1
      cases hm2 : minFold none l2 with
      | none =>
          have h2 : l2 = [] := (minFold_none_nil_iff l2).mp hm2
          exact absurd ((h m1).mp hmem1) (by simp [h2])
      | some m2 =>
          obtain ⟨hmem2, hall2⟩ := minFold_none_spec hm2
          have hle1 : dateLe m1 m2 := hall1 m2 ((h m2).mpr hmem2)
          have hle2 : dateLe m2 m1 := hall2 m1 ((h m1).mp hmem1)
          rw [dateLe_antisymm hle1 hle2]

/-- The dates a quarterly / semi-annual rule qualifies, as the spec words
them: the configured day-of-month within each month of the month-set, over
the current year and the following year, restricted to dates on/after
today. -/
def qsCandidatesSpec (dm : Int) (ms : List Int) (today : SDate) :
    List SDate :=
  ((ms.map (fun mo => (⟨today.y, mo, dm⟩ : SDate))) ++
      (ms.map (fun mo => (⟨today.y + 1, mo, dm⟩ : SDate)))).filter
    (fun dt => decide (dateLe today dt))

/-- Modelled from the specification's recurrence rules: the next qualifying
date of one configuration.  monthly: the configured day-of-month this month
if not yet passed (including today), else next month; quarterly /
semi-annual: the earliest qualifying date on/after today; specific_date:
the configured day/month mapped onto this year if on/after today, else onto
next year.  none when the rule's data is missing. -/
def nextOccurrenceSpec (c : CheckpointConfig) (today : SDate) :
    Option SDate :=
  match c.frequency with
  | .monthly =>
      match c.day_of_month with
      | none => none
      | some dm =>
          if today.d ≤ dm then some ⟨today.y, today.m, dm⟩
          else some (nextMonthDate today dm)
  | .quarterly | .semi_annual =>
      match c.day_of_month, c.months with
      | some dm, some ms => minFold none (qsCandidatesSpec dm ms today)
      | _, _ => none
  | .specific_date =>
      match c.specific_date with
      | none => none
      | some sd =>
          if dateLe today (setYearOf sd today.y) then
            some (setYearOf sd today.y)
          else some (setYearOf sd (today.y + 1))

/-- Minimum of the per-config next occurrences over the active configs. -/
def specNextCheckpoint (configs : List CheckpointConfig) (today : SDate) :
    Option SDate :=
  configs.foldl
    (fun acc c =>
      if c.is_active then optMinStep acc (nextOccurrenceSpec c today)
      else acc)
    none

theorem not_dateLt_nextMonth (today : SDate) (dm : Int) :
    ¬ dateLt (nextMonthDate today dm) ⟨today.y, today.m, dm⟩ := by
  unfold nextMonthDate
  by_cases h : today.m = 12
  · rw [if_pos h]; unfold dateLt; simp only; omega
  · rw [if_neg h]; unfold dateLt; simp only; omega

theorem dateLe_today_thisMonth_iff (today : SDate) (dm : Int) :
    dateLe today ⟨today.y, today.m, dm⟩ ↔ today.d ≤ dm := by
  rcases today with ⟨ty, tm, td⟩
  unfold dateLe
  dsimp only
  omega

theorem minFold_none_configCandidates (c : CheckpointConfig)
    (today : SDate) :
    minFold none (configCandidates c today) = nextOccurrenceSpec c today := by
  rcases c with ⟨freq, dm?, ms?, sd?, act⟩
  cases freq with
  | monthly =>
      cases dm? with
      | none => rfl
      | some dm =>
          simp only [configCandidates, nextOccurrenceSpec]
          by_cases hd : today.d ≤ dm
          · rw [if_pos ((dateLe_today_thisMonth_iff today dm).mpr hd),
              if_pos hd]
            show minStep (minStep none ⟨today.y, today.m, dm⟩)
                (nextMonthDate today dm) = some ⟨today.y, today.m, dm⟩
            simp only [minStep]
            rw [if_neg (not_dateLt_nextMonth today dm)]
          · rw [if_neg (fun h =>
                hd ((dateLe_today_thisMonth_iff today dm).mp h)),
              if_neg hd]
            rfl
  | quarterly =>
      cases dm? with
      | none => cases ms? <;> rfl
      | some dm =>
          cases ms? with
          | none => rfl
          | some ms =>
              simp only [configCandidates, nextOccurrenceSpec]
              refine minFold_congr_of_mem_iff (fun x => ?_)
              constructor
              · intro hx
                obtain ⟨mo, hmo, hxin⟩ := List.mem_flatMap.mp hx
                rcases List.mem_append.mp hxin with h | h
                · by_cases hle : dateLe today ⟨today.y, mo, dm⟩
                  · rw [if_pos hle] at h
                    rcases List.mem_singleton.mp h with rfl
                    refine List.mem_filter.mpr ⟨List.mem_append.mpr
                      (Or.inl (List.mem_map.mpr ⟨mo, hmo, rfl⟩)), ?_⟩
                    exact decide_eq_true hle
                  · rw [if_neg hle] at h
                    cases h
                · rcases List.mem_singleton.mp h with rfl
                  refine List.mem_filter.mpr ⟨List.mem_append.mpr
                    (Or.inr (List.mem_map.mpr ⟨mo, hmo, rfl⟩)), ?_⟩
                  refine decide_eq_true ?_
                  unfold dateLe; simp only; omega
              · intro hx
                obtain ⟨hmem, hdec⟩ := List.mem_filter.mp hx
                have hle : dateLe today x := of_decide_eq_true hdec
                rcases List.mem_append.mp hmem with h | h
                · obtain ⟨mo, hmo, rfl⟩ := List.mem_map.mp h
                  refine List.mem_flatMap.mpr ⟨mo, hmo, ?_⟩
                  rw [if_pos hle]
                  exact List.mem_append.mpr (Or.inl (List.mem_singleton.mpr
                    rfl))
                · obtain ⟨mo, hmo, rfl⟩ := List.mem_map.mp h
                  refine List.mem_flatMap.mpr ⟨mo, hmo, ?_⟩
                  exact List.mem_append.mpr (Or.inr (List.mem_singleton.mpr
                    rfl))
  | semi_annual =>
      cases dm? with
      | none => cases ms? <;> rfl
      | some dm =>
          cases ms? with
          | none => rfl
          | some ms =>
              simp only [configCandidates, nextOccurrenceSpec]
              refine minFold_congr_of_mem_iff (fun x => ?_)
              constructor
              · intro hx
                obtain ⟨mo, hmo, hxin⟩ := List.mem_flatMap.mp hx
                rcases List.mem_append.mp hxin with h | h
                · by_cases hle : dateLe today ⟨today.y, mo, dm⟩
                  · rw [if_pos hle] at h
                    rcases List.mem_singleton.mp h with rfl
                    refine List.mem_filter.mpr ⟨List.mem_append.mpr
                      (Or.inl (List.mem_map.mpr ⟨mo, hmo, rfl⟩)), ?_⟩
                    exact decide_eq_true hle
                  · rw [if_neg hle] at h
                    cases h
                · rcases List.mem_singleton.mp h with rfl
                  refine List.mem_filter.mpr ⟨List.mem_append.mpr
                    (Or.inr (List.mem_map.mpr ⟨mo, hmo, rfl⟩)), ?_⟩
                  refine decide_eq_true ?_
                  unfold dateLe; simp only; omega
              · intro hx
                obtain ⟨hmem, hdec⟩ := List.mem_filter.mp hx
                have hle : dateLe today x := of_decide_eq_true hdec
                rcases List.mem_append.mp hmem with h | h
                · obtain ⟨mo, hmo, rfl⟩ := List.mem_map.mp h
                  refine List.mem_flatMap.mpr ⟨mo, hmo, ?_⟩
                  rw [if_pos hle]
                  exact List.mem_append.mpr (Or.inl (List.mem_singleton.mpr
                    rfl))
                · obtain ⟨mo, hmo, rfl⟩ := List.mem_map.mp h
                  refine List.mem_flatMap.mpr ⟨mo, hmo, ?_⟩
                  exact List.mem_append.mpr (Or.inr (List.mem_singleton.mpr
                    rfl))
  | specific_date =>
      cases sd? with
      | none => rfl
      | some sd =>
          simp only [configCandidates, nextOccurrenceSpec]
          by_cases hlt : dateLt (setYearOf sd today.y) today
          · rw [if_pos hlt,
              if_neg ((dateLt_iff_not_le (setYearOf sd today.y) today).mp
                hlt)]
            rfl
          · rw [if_neg hlt, if_pos (not_dateLt_le hlt)]
            rfl

theorem getNextCheckpointDate_go (today : SDate) :
    ∀ (configs : List CheckpointConfig) (acc : Option SDate),
      configs.foldl
          (fun acc c =>
            if c.is_active then minFold acc (configCandidates c today)
            else acc) acc =
        configs.foldl
          (fun acc c =>
            if c.is_active then optMinStep acc (nextOccurrenceSpec c today)
            else acc) acc := by
  intro configs
  induction configs with
  | nil => intro acc; rfl
  | cons c tl ih =>
      intro acc
      simp only [List.foldl_cons]
      rw [ih]
      by_cases hact : c.is_active
      · rw [if_pos hact, if_pos hact, minFold_acc,
          minFold_none_configCandidates]
      · rw [if_neg hact, if_neg hact]

/-- getNextCheckpointDate computes the minimum of the per-config next
occurrences over the active configs. -/
theorem getNextCheckpointDate_eq_spec (configs : List CheckpointConfig)
    (today : SDate) :
    getNextCheckpointDate configs today = specNextCheckpoint configs today :=
  getNextCheckpointDate_go today configs none

theorem getNextCheckpointDate_none_of_inactive
    (configs : List CheckpointConfig) (today : SDate)
    (h : ∀ c ∈ configs, c.is_active = false) :
    getNextCheckpointDate configs today = none := by
  unfold getNextCheckpointDate
  induction configs with
  | nil => rfl
  | cons c tl ih =>
      simp only [List.foldl_cons]
      rw [if_neg (by rw [h c (List.mem_cons_self c tl)]; simp)]
      exact ih (fun x hx => h x (List.mem_cons_of_mem c hx))

-- ============================================
-- Properties of the checkpoint selector
-- ============================================

/-- The anti-repetition invariant of checkpoint_reveals: no two rows share
the same (entry_id, revealed_to_user_id) pair (the unique_entry_per_user
constraint). -/
def NoRepeat (rs : List RevealRow) : Prop :=
  rs.Pairwise (fun a b =>
    ¬ (a.entry_id = b.entry_id ∧ a.revealed_to_user_id = b.revealed_to_user_id))

theorem mem_revealedEntryIds {db : CheckpointDB} {uid eid : Nat} :
    eid ∈ revealedEntryIds db uid ↔
      ∃ r ∈ db.reveals, r.revealed_to_user_id = uid ∧ r.entry_id = eid := by
  unfold revealedEntryIds
  simp only [List.mem_map, List.mem_filter, decide_eq_true_eq]
  constructor
  · rintro ⟨r, ⟨hr, hru⟩, rfl⟩
    exact ⟨r, hr, hru, rfl⟩
  · rintro ⟨r, hr, hru, rfl⟩
    exact ⟨r, ⟨hr, hru⟩, rfl⟩

theorem mem_eligibleEntries {db : CheckpointDB} {cid pid uid : Nat}
    {e : EntryRow} :
    e ∈ eligibleEntries db cid pid uid ↔
      e ∈ db.entries ∧ e.couple_id = cid ∧ e.author_id = pid ∧
        e.is_draft = false ∧ e.id ∉ revealedEntryIds db uid := by
  unfold eligibleEntries
  simp only [List.mem_filter, Bool.and_eq_true, decide_eq_true_eq,
    Bool.not_eq_true']
  constructor
  · rintro ⟨he, ⟨⟨⟨hc, ha⟩, hd⟩, hcont⟩⟩
    refine ⟨he, hc, ha, by simpa using hd, ?_⟩
    intro hmem
    have helem := List.elem_eq_true_of_mem hmem
    have hcont2 : List.elem e.id (revealedEntryIds db uid) = false := hcont
    rw [helem] at hcont2
    cases hcont2
  · rintro ⟨he, hc, ha, hd, hmem⟩
    refine ⟨he, ⟨⟨⟨hc, ha⟩, by simp [hd]⟩, ?_⟩⟩
    show List.elem e.id (revealedEntryIds db uid) = false
    rw [Bool.eq_false_iff]
    intro helem
    exact hmem (List.mem_of_elem_eq_true helem)

theorem select_preserves_no_repeat (db : CheckpointDB) (coupleId : Nat)
    (configId : Option Nat) (uid : Nat) (today : Int) (pick : Nat)
    (partnerId : Nat) (h : NoRepeat db.reveals) :
    NoRepeat (getCheckpointEntrySelect db coupleId configId uid today pick
      partnerId).2.reveals := by
  unfold getCheckpointEntrySelect
  cases hget : (eligibleEntries db coupleId partnerId uid).get?
      (pick % (eligibleEntries db coupleId partnerId uid).length) with
  | none => exact h
  | some chosen =>
      show NoRepeat (db.reveals ++ [⟨coupleId, configId, chosen.id, uid, today⟩])
      have hchosen : chosen ∈ eligibleEntries db coupleId partnerId uid :=
        List.get?_mem hget
      have hnotrev : chosen.id ∉ revealedEntryIds db uid :=
        (mem_eligibleEntries.mp hchosen).2.2.2.2
      unfold NoRepeat
      rw [List.pairwise_append]
      refine ⟨h, List.pairwise_singleton _ _, ?_⟩
      intro a ha b hb
      rcases List.mem_singleton.mp hb with rfl
      rintro ⟨hent, hrev⟩
      exact hnotrev (mem_revealedEntryIds.mpr ⟨a, ha, hrev, hent⟩)

-- ============================================
-- Concrete fixtures
-- ============================================

/-- A couple (id 7, partners 1 and 2) with two published partner entries
whose nullable columns (mood, location) are all NULL, and no reveals yet. -/
def dbIdem : CheckpointDB :=
  { couples := [⟨7, 1, 2⟩],
    entries := [⟨10, 7, 2, false, 100, 5, none, none, none, none⟩,
                ⟨11, 7, 2, false, 101, 6, none, none, none, none⟩],
    reveals := [] }

/-- A couple whose single published partner entry has already been revealed
to partner 1 on an earlier day (day 400). -/
def dbExhausted : CheckpointDB :=
  { couples := [⟨7, 1, 2⟩],
    entries := [⟨10, 7, 2, false, 100, 5, none, none, none, none⟩],
    reveals := [⟨7, some 3, 10, 1, 400⟩] }

/-- A monthly checkpoint config on day 15. -/
def monthlyCfg15 : CheckpointConfig :=
  ⟨.monthly, some 15, none, none, true⟩

/-- An active specific-date config for 2024-06-20. -/
def cfgJun20 : CheckpointConfig :=
  ⟨.specific_date, none, none, some ⟨2024, 6, 20⟩, true⟩

/-- An active specific-date config for 2024-06-10. -/
def cfgJun10 : CheckpointConfig :=
  ⟨.specific_date, none, none, some ⟨2024, 6, 10⟩, true⟩

/-- An inactive monthly config. -/
def inactiveCfg : CheckpointConfig :=
  ⟨.monthly, some 15, none, none, false⟩

/-- An active specific-date config whose stored date is 2023-02-14 (a
birthday-style date stored in a past year). -/
def cfgBday : CheckpointConfig :=
  ⟨.specific_date, none, none, some ⟨2023, 2, 14⟩, true⟩

/-- A couple already revealed in 2024, with the 2024 snapshot holding
stats payload 5. -/
def stReady2024 : RevealState :=
  { couple := ⟨some ⟨2020, 6, 15⟩, true, some 2024⟩,
    history := [(2024, 5)] }

/-- A couple with anniversary 2020-06-15 that has never revealed. -/
def stFresh : RevealState :=
  { couple := ⟨some ⟨2020, 6, 15⟩, false, none⟩, history := [] }

/-- All pipeline steps succeed. -/
def allOkOracle : TriggerOracle := ⟨true, true, true, true⟩

/-- The get_reveal_stats RPC fails (after the edge function updated the
couple row). -/
def statsFailOracle : TriggerOracle := ⟨true, true, false, true⟩

/-- The save_reveal_snapshot RPC fails; the hook ignores its error. -/
def saveFailOracle : TriggerOracle := ⟨true, true, true, false⟩

-- ============================================
-- Supporting lemmas for the gate and trigger claims
-- ============================================

theorem lastYearLe_refl (x : Option Int) : lastYearLe x x := by
  cases x <;> simp [lastYearLe]

theorem edgeIsReady_some_iff (a : SDate) (rev : Bool) (lry : Option Int)
    (today : SDate) :
    edgeIsReady ⟨some a, rev, lry⟩ today = true ↔
      (dateLe ⟨today.y, a.m, a.d⟩ today ∧
        (lry = none ∨ ∃ yr, lry = some yr ∧ yr < today.y)) := by
  cases lry with
  | none =>
      simp only [edgeIsReady, Bool.and_eq_true, decide_eq_true_eq]
      simp
  | some yr =>
      simp only [edgeIsReady, Bool.and_eq_true, decide_eq_true_eq]
      simp

theorem dateLe_monthday_iff (ty am ad tm td : Int) :
    dateLe ⟨ty, am, ad⟩ ⟨ty, tm, td⟩ ↔
      (am < tm ∨ (am = tm ∧ ad ≤ td)) := by
  unfold dateLe
  dsimp only
  omega

theorem lastYearLe_of_ready {c : CoupleReveal} {today : SDate}
    (h : edgeIsReady c today = true) :
    lastYearLe c.last_reveal_year (some today.y) := by
  rcases c with ⟨a?, rev, lry⟩
  cases a? with
  | none => simp [edgeIsReady] at h
  | some a =>
      cases lry with
      | none => trivial
      | some yr =>
          obtain ⟨-, h2⟩ := (edgeIsReady_some_iff a rev (some yr) today).mp h
          rcases h2 with h2 | ⟨yr2, hyr2, hlt⟩
          · cases h2
          · have : yr = yr2 := Option.some.inj hyr2
            subst this
            show yr ≤ today.y
            omega

theorem triggerReveal_not_ready {st : RevealState} {today : SDate}
    (stats : Nat) (o : TriggerOracle)
    (h : edgeIsReady st.couple today = false) :
    triggerReveal st today stats o = (false, st) := by
  unfold triggerReveal
  rcases o with ⟨r, u, s, v⟩
  cases r with
  | false => rfl
  | true =>
      cases ha : st.couple.anniversary_date with
      | none => rfl
      | some a =>
          rw [h]
          rfl

-- ============================================
-- Claim theorems
-- ============================================

/-- C1: the claimed same-day idempotence of get_checkpoint_entry fails on
the code.  The function's existing-reveal check is IF v_existing_reveal IS
NOT NULL, which for a row value is true only when every field is non-null;
when the joined record contains any NULL (here checkpoint_config_id, since
the RPC was called without a config, and the entry's mood/location), a
second call on the same day falls through, selects a second entry and
inserts a second CheckpointReveal row for the same (couple, viewer, date). -/
theorem get_checkpoint_entry_second_call_inserts_again :
    (getCheckpointEntry dbIdem 7 none 1 500 0).1.entry = some 10 ∧
    (getCheckpointEntry (getCheckpointEntry dbIdem 7 none 1 500 0).2 7 none 1
        500 0).1.entry = some 11 ∧
    (getCheckpointEntry (getCheckpointEntry dbIdem 7 none 1 500 0).2 7 none 1
        500 0).1.already_revealed = false ∧
    ((getCheckpointEntry (getCheckpointEntry dbIdem 7 none 1 500 0).2 7 none 1
        500 0).2.reveals.filter (fun r =>
          r.couple_id = 7 && r.revealed_to_user_id = 1 &&
            r.checkpoint_date = 500)).length = 2 := by decide

/-- C2: every call of get_checkpoint_entry preserves the invariant that no
(entry, viewer) pair appears twice in checkpoint_reveals: the selection
excludes entries already revealed to the viewer, so the appended row cannot
duplicate a pair. -/
theorem get_checkpoint_entry_preserves_no_repeat (db : CheckpointDB)
    (coupleId : Nat) (configId : Option Nat) (uid : Nat) (today : Int)
    (pick : Nat) (h : NoRepeat db.reveals) :
    NoRepeat (getCheckpointEntry db coupleId configId uid today pick).2.reveals := by
  unfold getCheckpointEntry
  cases hp : findPartner db coupleId uid with
  | none => exact h
  | some partnerId =>
      cases he : findExistingReveal db coupleId uid today with
      | none =>
          exact select_preserves_no_repeat db coupleId configId uid today
            pick partnerId h
      | some re =>
          rcases re with ⟨r, e⟩
          dsimp only
          by_cases hnn : existingRecordAllNonNull r e = true
          · rw [hnn]
            exact h
          · have hf : existingRecordAllNonNull r e = false := by
              revert hnn; cases existingRecordAllNonNull r e <;> simp
            rw [hf]
            exact select_preserves_no_repeat db coupleId configId uid today
              pick partnerId h

/-- C2 witness: the invariant is preserved across a concrete call. -/
theorem get_checkpoint_entry_preserves_no_repeat_witness :
    NoRepeat (getCheckpointEntry dbIdem 7 none 1 500 0).2.reveals :=
  get_checkpoint_entry_preserves_no_repeat dbIdem 7 none 1 500 0
    List.Pairwise.nil

/-- C3 counterexample: with last_reveal_year already equal to the current
year, triggering again does NOT overwrite the snapshot: the edge function's
gate rejects the call (isReady is false because last_reveal_year is not
smaller than the current year), the hook throws, and the stored snapshot
keeps its old payload 5 even though a fresh trigger would have written 9
(as the upsert of save_reveal_snapshot shows). -/
theorem trigger_reveal_same_year_does_not_overwrite :
    triggerReveal stReady2024 ⟨2024, 6, 20⟩ 9 allOkOracle =
      (false, stReady2024) ∧
    stReady2024.history = [(2024, 5)] ∧
    saveRevealSnapshot stReady2024.history 2024 9 = [(2024, 9)] := by decide

/-- C3 (amended): triggerReveal never decreases last_reveal_year, and for a
couple whose last_reveal_year already equals the current year the call
fails (the gate reports not eligible) and leaves the whole state — both
last_reveal_year and the stored snapshot — unchanged, rather than
recomputing and overwriting. -/
theorem trigger_reveal_monotonic_and_same_year_rejected :
    (∀ (st : RevealState) (today : SDate) (stats : Nat) (o : TriggerOracle),
        lastYearLe st.couple.last_reveal_year
          (triggerReveal st today stats o).2.couple.last_reveal_year) ∧
    (∀ (st : RevealState) (today : SDate) (stats : Nat) (o : TriggerOracle),
        st.couple.last_reveal_year = some today.y →
          triggerReveal st today stats o = (false, st)) := by
  constructor
  · intro st today stats o
    unfold triggerReveal
    rcases o with ⟨r, u, s, v⟩
    cases r with
    | false => exact lastYearLe_refl _
    | true =>
        cases ha : st.couple.anniversary_date with
        | none => exact lastYearLe_refl _
        | some a =>
            by_cases hready : edgeIsReady st.couple today = true
            · rw [hready]
              cases u with
              | false => exact lastYearLe_refl _
              | true =>
                  cases s with
                  | false => exact lastYearLe_of_ready hready
                  | true =>
                      cases v with
                      | false => exact lastYearLe_of_ready hready
                      | true => exact lastYearLe_of_ready hready
            · have hf : edgeIsReady st.couple today = false := by
                revert hready; cases edgeIsReady st.couple today <;> simp
              rw [hf]
              exact lastYearLe_refl _
  · intro st today stats o h
    apply triggerReveal_not_ready
    rcases st with ⟨⟨a?, rev, lry⟩, hist⟩
    dsimp only at h
    subst h
    cases a? with
    | none => rfl
    | some a => simp [edgeIsReady]

/-- C3 witness: a concrete same-year re-trigger is rejected unchanged. -/
theorem trigger_reveal_same_year_rejected_witness :
    triggerReveal stReady2024 ⟨2024, 6, 20⟩ 7 statsFailOracle =
      (false, stReady2024) :=
  trigger_reveal_monotonic_and_same_year_rejected.2 stReady2024
    ⟨2024, 6, 20⟩ 7 statsFailOracle rfl

/-- C4: the trigger pipeline is not all-or-nothing.  From a fresh eligible
couple, a failure of the stats fetch after the edge function updated the
couple row leaves is_revealed true and last_reveal_year 2024 with no
snapshot row; a failure of save_reveal_snapshot is not even inspected by
the hook, which reports success while no snapshot was stored.  The all-ok
run shows the state a complete trigger produces. -/
theorem trigger_reveal_partial_state_on_failure :
    triggerReveal stFresh ⟨2024, 6, 20⟩ 9 statsFailOracle =
      (false, { couple := ⟨some ⟨2020, 6, 15⟩, true, some 2024⟩,
                history := [] }) ∧
    triggerReveal stFresh ⟨2024, 6, 20⟩ 9 saveFailOracle =
      (true, { couple := ⟨some ⟨2020, 6, 15⟩, true, some 2024⟩,
               history := [] }) ∧
    triggerReveal stFresh ⟨2024, 6, 20⟩ 9 allOkOracle =
      (true, { couple := ⟨some ⟨2020, 6, 15⟩, true, some 2024⟩,
               history := [(2024, 9)] }) := by decide

/-- C5: the reveal gate reports ready exactly when the anniversary date is
set, today's (month, day) is on/after the anniversary's (month, day) in the
current year, and last_reveal_year is null or smaller than the current
year; the client-side isAnniversaryReady computes the same gate, and the
four dates of the claim evaluate as stated. -/
theorem reveal_gate_ready_iff_spec :
    (∀ (couple : CoupleReveal) (today : SDate),
        edgeIsReady couple today = true ↔ specGateReady couple today) ∧
    (∀ (anniv : SDate) (lry : Option Int) (today : SDate),
        isAnniversaryReady anniv lry today =
          edgeIsReady ⟨some anniv, false, lry⟩ today) ∧
    isAnniversaryReady ⟨2020, 6, 15⟩ none ⟨2024, 6, 15⟩ = true ∧
    isAnniversaryReady ⟨2020, 6, 15⟩ none ⟨2024, 6, 10⟩ = false ∧
    isAnniversaryReady ⟨2020, 6, 15⟩ (some 2024) ⟨2024, 6, 20⟩ = false ∧
    isAnniversaryReady ⟨2020, 6, 15⟩ (some 2024) ⟨2025, 6, 15⟩ = true := by
  refine ⟨?_, ?_, by decide, by decide, by decide, by decide⟩
  · intro couple today
    rcases couple with ⟨anniv?, rev, lry⟩
    cases anniv? with
    | none =>
        constructor
        · intro h
          simp [edgeIsReady] at h
        · rintro ⟨a, ha, -⟩
          cases ha
    | some a =>
        rw [edgeIsReady_some_iff]
        simp only [specGateReady]
        constructor
        · rintro ⟨hle, hyr⟩
          refine ⟨a, rfl, ?_, hyr⟩
          rcases a with ⟨ay, am, ad⟩
          rcases today with ⟨ty, tm, td⟩
          exact (dateLe_monthday_iff ty am ad tm td).mp hle
        · rintro ⟨a2, ha2, hmd, hyr⟩
          have haa : a = a2 := Option.some.inj ha2
          subst haa
          refine ⟨?_, hyr⟩
          rcases a with ⟨ay, am, ad⟩
          rcases today with ⟨ty, tm, td⟩
          exact (dateLe_monthday_iff ty am ad tm td).mpr hmd
  · intro anniv lry today
    rcases anniv with ⟨ay, am, ad⟩
    rfl

/-- C6: check_checkpoint_today compares specific_date configs by exact
date equality including the year, so a config stored with the 2023 date
does not match 2024-02-14 even though month and day agree — while the
client-side recurrence calculator maps the same config onto the current
year and reports 2024-02-14 as its next occurrence. -/
theorem check_checkpoint_today_specific_date_exact_match :
    checkCheckpointToday [cfgBday] ⟨2024, 2, 14⟩ = false ∧
    checkCheckpointToday [cfgBday] ⟨2023, 2, 14⟩ = true ∧
    cfgBday.is_active = true ∧
    cfgBday.specific_date = some ⟨2023, 2, 14⟩ ∧
    getNextCheckpointDate [cfgBday] ⟨2024, 2, 14⟩ = some ⟨2024, 2, 14⟩ := by
  decide

/-- C7: once every published partner entry has been revealed to the viewer,
a call on a date with no same-day reveal returns no_entries true with no
error and leaves the database unchanged — exhaustion is a normal outcome
with no side effect. -/
theorem get_checkpoint_entry_exhaustion (db : CheckpointDB) (coupleId : Nat)
    (configId : Option Nat) (uid : Nat) (today : Int) (pick : Nat)
    (partnerId : Nat)
    (hpart : findPartner db coupleId uid = some partnerId)
    (hnotoday : findExistingReveal db coupleId uid today = none)
    (hexh : ∀ e ∈ db.entries, e.couple_id = coupleId →
      e.author_id = partnerId → e.is_draft = false →
        e.id ∈ revealedEntryIds db uid) :
    getCheckpointEntry db coupleId configId uid today pick =
      (⟨none, false, true, none⟩, db) := by
  have hcands : eligibleEntries db coupleId partnerId uid = [] := by
    rw [List.eq_nil_iff_forall_not_mem]
    intro e hmem
    obtain ⟨he, hc, ha, hd, hnot⟩ := mem_eligibleEntries.mp hmem
    exact hnot (hexh e he hc ha hd)
  unfold getCheckpointEntry getCheckpointEntrySelect
  rw [hpart, hnotoday]
  dsimp only
  rw [hcands]
  rfl

/-- C7 witness: exhaustion at a concrete database. -/
theorem get_checkpoint_entry_exhaustion_witness :
    getCheckpointEntry dbExhausted 7 none 1 500 0 =
      (⟨none, false, true, none⟩, dbExhausted) :=
  get_checkpoint_entry_exhaustion dbExhausted 7 none 1 500 0 2 (by decide)
    (by decide) (by decide)

/-- C8: the longest-streak statistic equals the length of the longest run
of consecutive calendar days in the distinct sorted date set (0 for the
empty set), and the claim's example dates yield 3. -/
theorem reveal_stats_longest_streak_correct :
    (∀ dates : List Int, longestStreakStat dates = specLongestStreak dates) ∧
    longestStreakStat [] = 0 ∧
    longestStreakStat [daysFromCivil 2024 6 1, daysFromCivil 2024 6 2,
      daysFromCivil 2024 6 3, daysFromCivil 2024 6 5] = 3 :=
  ⟨longestStreakStat_eq_spec, by decide, by decide⟩

/-- C9: getNextCheckpointDate is the minimum of the per-config next
occurrences over the active configs, returns none for an empty or
all-inactive list, and the claim's monthly and soonest-of-many examples
evaluate as stated. -/
theorem get_next_checkpoint_date_correct :
    (∀ (configs : List CheckpointConfig) (today : SDate),
        getNextCheckpointDate configs today =
          specNextCheckpoint configs today) ∧
    (∀ (configs : List CheckpointConfig) (today : SDate),
        (∀ c ∈ configs, c.is_active = false) →
          getNextCheckpointDate configs today = none) ∧
    getNextCheckpointDate [] ⟨2024, 1, 1⟩ = none ∧
    getNextCheckpointDate [monthlyCfg15] ⟨2024, 6, 20⟩ =
      some ⟨2024, 7, 15⟩ ∧
    getNextCheckpointDate [monthlyCfg15] ⟨2024, 6, 10⟩ =
      some ⟨2024, 6, 15⟩ ∧
    getNextCheckpointDate [cfgJun20, cfgJun10] ⟨2024, 6, 1⟩ =
      some ⟨2024, 6, 10⟩ :=
  ⟨getNextCheckpointDate_eq_spec, getNextCheckpointDate_none_of_inactive,
    by decide, by decide, by decide, by decide⟩

/-- C9 witness: an all-inactive list yields none. -/
theorem get_next_checkpoint_date_correct_witness :
    getNextCheckpointDate [inactiveCfg] ⟨2024, 3, 3⟩ = none :=
  get_next_checkpoint_date_correct.2.1 [inactiveCfg] ⟨2024, 3, 3⟩ (by decide)

/-- C10: get_checkpoint_entry never consults the checkpoint configs or the
calendar: for every date (the date below is universally quantified and
unconstrained), a member caller with no same-day reveal and a nonempty
eligible set gets an entry revealed and a CheckpointReveal row inserted
dated that day. -/
theorem get_checkpoint_entry_any_date (db : CheckpointDB) (coupleId : Nat)
    (configId : Option Nat) (uid : Nat) (pick : Nat) (partnerId : Nat)
    (today : Int)
    (hpart : findPartner db coupleId uid = some partnerId)
    (hno : findExistingReveal db coupleId uid today = none)
    (hne : eligibleEntries db coupleId partnerId uid ≠ []) :
    ∃ chosen ∈ eligibleEntries db coupleId partnerId uid,
      getCheckpointEntry db coupleId configId uid today pick =
        (⟨some chosen.id, false, false, none⟩,
         { db with reveals := db.reveals ++
             [⟨coupleId, configId, chosen.id, uid, today⟩] }) := by
  have hlen : 0 < (eligibleEntries db coupleId partnerId uid).length :=
    List.length_pos.mpr hne
  have hlt : pick % (eligibleEntries db coupleId partnerId uid).length <
      (eligibleEntries db coupleId partnerId uid).length :=
    Nat.mod_lt _ hlen
  have hget : (eligibleEntries db coupleId partnerId uid).get?
      (pick % (eligibleEntries db coupleId partnerId uid).length) =
        some ((eligibleEntries db coupleId partnerId uid).get ⟨_, hlt⟩) :=
    List.get?_eq_get hlt
  refine ⟨(eligibleEntries db coupleId partnerId uid).get ⟨_, hlt⟩,
    List.get_mem _ _ hlt, ?_⟩
  unfold getCheckpointEntry getCheckpointEntrySelect
  rw [hpart, hno]
  dsimp only
  rw [hget]

/-- C10 witness: a reveal happens on an arbitrary date 777 with a config
id supplied. -/
theorem get_checkpoint_entry_any_date_witness :
    ∃ chosen ∈ eligibleEntries dbIdem 7 2 1,
      getCheckpointEntry dbIdem 7 (some 9) 1 777 0 =
        (⟨some chosen.id, false, false, none⟩,
         { dbIdem with reveals := dbIdem.reveals ++
             [⟨7, some 9, chosen.id, 1, 777⟩] }) :=
  get_checkpoint_entry_any_date dbIdem 7 (some 9) 1 0 2 777 (by decide)
    (by decide) (by decide)

end LoveCapsule
